import Mathlib

/-!
Verification development for the nexo_im instant-messaging backend.

The Go sources are shallowly embedded in Lean: pure functions become Lean
functions, stateful repository access becomes explicit state passing through
oracle structures, Go `int64` values become `Int` (overflow is irrelevant at
the magnitudes involved), and fallible Go code returns `Except`.

Each embedded definition names the Go function it mirrors.  Definitions whose
Go source is not part of the repository snapshot (only callers or tests of
them are) carry a doc comment starting with `Modelled from the spec:`.
-/

namespace NexoIm

/-! ## Shared error codes (pkg/errcode) -/

/-- Error kinds used by the embedded services and middleware, mirroring the
stable error codes of `pkg/errcode` that the embedded code paths return. -/
inductive Err where
  | internalServer
  | convNotFound
  | unauthorized
  | invalidParam
  | forbidden
  | tokenInvalid
  deriving DecidableEq, Repr

/-! ## Decimal digits helpers

Kernel-reducible decimal digit expansion (little-endian, like
`Nat.digits 10`), used by the actor string codec below. -/

/-- Fuel-indexed little-endian base-10 digit expansion; `fuel ≥ n` suffices. -/
def natToDigitsRev (fuel n : Nat) : List Nat :=
  match fuel with
  | 0 => []
  | fuel + 1 => if n = 0 then [] else (n % 10) :: natToDigitsRev fuel (n / 10)

/-- Little-endian base-10 digits of `n` (empty for `n = 0`). -/
def natDigits (n : Nat) : List Nat := natToDigitsRev n n

theorem natToDigitsRev_eq_digits :
    ∀ fuel n, n ≤ fuel → natToDigitsRev fuel n = Nat.digits 10 n := by
  intro fuel
  induction fuel with
  | zero =>
    intro n hn
    have : n = 0 := Nat.le_zero.mp hn
    subst this
    simp [natToDigitsRev]
  | succ fuel ih =>
    intro n hn
    by_cases h0 : n = 0
    · subst h0; simp [natToDigitsRev]
    · have hpos : 0 < n := Nat.pos_of_ne_zero h0
      have hdiv : n / 10 ≤ fuel := by
        have h1 : n / 10 < n := Nat.div_lt_self hpos (by norm_num)
        omega
      rw [natToDigitsRev]
      simp only [h0, if_false]
      rw [ih (n / 10) hdiv, Nat.digits_def' (by norm_num : (1:Nat) < 10) hpos]

theorem natDigits_eq_digits (n : Nat) : natDigits n = Nat.digits 10 n :=
  natToDigitsRev_eq_digits n n (Nat.le_refl n)

/-- Character for a single decimal digit value. -/
def digitToChar (d : Nat) : Char := Char.ofNat (48 + d)

/-- Decimal character list for `n` (most significant digit first). -/
def natToChars (n : Nat) : List Char :=
  if n = 0 then ['0'] else ((natDigits n).map digitToChar).reverse

/-- Decimal string for `n`, as produced by Go `strconv.FormatInt` for
non-negative input. -/
def natToString (n : Nat) : String := String.mk (natToChars n)

/-- Parses a non-empty all-digit character list as a natural number,
accepting leading zeros (as Go `strconv.ParseInt` does). -/
def parseNatDigits (cs : List Char) : Option Nat :=
  if cs ≠ [] ∧ cs.all Char.isDigit then
    some (cs.foldl (fun a c => 10 * a + (c.toNat - 48)) 0)
  else
    none

theorem digitToChar_toNat {d : Nat} (hd : d < 10) :
    (digitToChar d).toNat = 48 + d := by
  interval_cases d <;> decide

theorem digitToChar_isDigit {d : Nat} (hd : d < 10) :
    (digitToChar d).isDigit = true := by
  interval_cases d <;> decide

theorem foldl_digits_eq_ofDigits :
    ∀ L : List Nat, L.reverse.foldl (fun a d => 10 * a + d) 0 = Nat.ofDigits 10 L := by
  intro L
  induction L with
  | nil => simp [Nat.ofDigits]
  | cons d T ih =>
    simp only [List.reverse_cons, List.foldl_append, List.foldl_cons, List.foldl_nil, ih,
      Nat.ofDigits_cons]
    ring

theorem parseNatDigits_natToChars (n : Nat) :
    parseNatDigits (natToChars n) = some n := by
  by_cases h0 : n = 0
  · subst h0; decide
  · have hne : Nat.digits 10 n ≠ [] := Nat.digits_ne_nil_iff_ne_zero.mpr h0
    have hlt : ∀ d ∈ Nat.digits 10 n, d < 10 := fun d hd =>
      Nat.digits_lt_base (by norm_num) hd
    unfold natToChars
    simp only [h0, if_false, natDigits_eq_digits]
    unfold parseNatDigits
    have hne2 : ((Nat.digits 10 n).map digitToChar).reverse ≠ [] := by
      simp [hne]
    have hall : (((Nat.digits 10 n).map digitToChar).reverse).all Char.isDigit = true := by
      rw [List.all_eq_true]
      intro c hc
      rw [List.mem_reverse, List.mem_map] at hc
      obtain ⟨d, hd, rfl⟩ := hc
      exact digitToChar_isDigit (hlt d hd)
    simp only [hne2, hall, and_true, ne_eq, not_false_eq_true, if_true, Option.some.injEq]
    rw [← List.map_reverse, List.foldl_map]
    have hcong :
        (Nat.digits 10 n).reverse.foldl (fun a c => 10 * a + ((digitToChar c).toNat - 48)) 0
          = (Nat.digits 10 n).reverse.foldl (fun a d => 10 * a + d) 0 := by
      apply List.foldl_ext
      intro a d hd
      rw [List.mem_reverse] at hd
      rw [digitToChar_toNat (hlt d hd)]
      omega
    rw [hcong, foldl_digits_eq_ofDigits, Nat.ofDigits_digits]

/-! ## Actor identity (common.Actor, sdk/actor.go) -/

/-- Role of an actor: `common.RoleUser` or `common.RoleAgent`. -/
inductive Role where
  | user
  | agent
  deriving DecidableEq, Repr

/-- Modelled from the spec: `common.Actor` is not part of the repository
snapshot (only `sdk/actor.go` and its tests call it).  Per the spec it is an
identity `(role ∈ {user, agent}, numeric_id)`; the id is modelled as a
natural number. -/
structure Actor where
  role : Role
  id : Nat
  deriving DecidableEq, Repr

/-- Error returned by actor parsing; the spec requires malformed input to
yield a distinct error. -/
inductive ActorErr where
  | invalidFormat
  deriving DecidableEq, Repr

/-- Modelled from the spec: the fixed-width role tag of the canonical string
form `"<role-tag>___<id>"`; the repository's tests pin the two tags to the
4-character prefixes `u___` and `ag__` (see `sdk/actor_test.go`). -/
def roleTag : Role → List Char
  | .user => ['u', '_', '_', '_']
  | .agent => ['a', 'g', '_', '_']

/-- Modelled from the spec: `common.Actor.ToIMUserId` renders the canonical
string form `"<role-tag>___<id>"`.  The Go method also returns an error
channel, which is never hit for the two valid roles. -/
def Actor.toIMUserId (a : Actor) : String :=
  String.mk (roleTag a.role ++ natToChars a.id)

/-- Modelled from the spec: `common.Actor.FromIMUserId` parses the canonical
string form back into an actor; any input that does not consist of a known
role tag followed by decimal digits is the distinct `invalidFormat` error. -/
def Actor.fromIMUserId (s : String) : Except ActorErr Actor :=
  let cs := s.toList
  if cs.take 4 = roleTag .user then
    match parseNatDigits (cs.drop 4) with
    | some n => .ok ⟨.user, n⟩
    | none => .error .invalidFormat
  else if cs.take 4 = roleTag .agent then
    match parseNatDigits (cs.drop 4) with
    | some n => .ok ⟨.agent, n⟩
    | none => .error .invalidFormat
  else
    .error .invalidFormat

/-- Mirrors `sdk.GetActorFromUserId` (sdk/actor.go): parse one user-id
string. -/
def GetActorFromUserId (userId : String) : Except ActorErr Actor :=
  Actor.fromIMUserId userId

/-- Mirrors `sdk.MGetActorFromUserIds` (sdk/actor.go): the Go loop parses
every element and aborts on the first error, but never appends the parsed
actor to the result slice `ret`, so the success value is always the nil
slice. -/
def MGetActorFromUserIds : List String → Except ActorErr (List Actor)
  | [] => .ok []
  | userId :: rest =>
    match Actor.fromIMUserId userId with
    | .error e => .error e
    | .ok _ => MGetActorFromUserIds rest

theorem toList_toIMUserId (a : Actor) :
    a.toIMUserId.toList = roleTag a.role ++ natToChars a.id := rfl

theorem roleTag_length (r : Role) : (roleTag r).length = 4 := by
  cases r <;> rfl

theorem fromIMUserId_toIMUserId (a : Actor) :
    Actor.fromIMUserId a.toIMUserId = .ok a := by
  unfold Actor.fromIMUserId
  rw [toList_toIMUserId]
  have htake : (roleTag a.role ++ natToChars a.id).take 4 = roleTag a.role := by
    rw [← roleTag_length a.role]
    exact List.take_left _ _
  have hdrop : (roleTag a.role ++ natToChars a.id).drop 4 = natToChars a.id := by
    rw [← roleTag_length a.role]
    exact List.drop_left _ _
  obtain ⟨r, n⟩ := a
  cases r with
  | user =>
    simp [htake, hdrop, parseNatDigits_natToChars]
  | agent =>
    have hne : roleTag .agent ≠ roleTag .user := by decide
    simp [htake, hdrop, hne, parseNatDigits_natToChars]

/-! ## Conversation engine (service/conversation.go, handler/conversation.go)

Repository access (`repository.ConversationRepo`, `repository.SeqRepo`,
`repository.MessageRepo`) is embedded as oracle functions carried in a
`Repos` state; Go `(value, err)` returns become `Except Err`. -/

/-- Row of the owner-scoped conversation table
(`entity.Conversation` as read back by the repository). -/
structure ConversationRow where
  conversationId : String
  conversationType : Int
  peerUserId : String
  groupId : String
  recvMsgOpt : Int
  isPinned : Bool
  updatedAt : Int
  deriving DecidableEq, Repr

/-- Mirrors `entity.ConversationWithSeq`: a conversation row joined with its
sequence counters. -/
structure ConversationWithSeq where
  conversationId : String
  conversationType : Int
  peerUserId : String
  groupId : String
  recvMsgOpt : Int
  isPinned : Bool
  unreadCount : Int
  maxSeq : Int
  readSeq : Int
  updatedAt : Int
  deriving DecidableEq, Repr

/-- Mirrors `entity.Message` restricted to the fields the conversation
engine reads. -/
structure Message where
  conversationId : String
  seq : Int
  content : String
  deriving DecidableEq, Repr

/-- Mirrors `entity.MessageInfo` (the wire form produced by
`Message.ToMessageInfo`). -/
structure MessageInfo where
  conversationId : String
  seq : Int
  content : String
  deriving DecidableEq, Repr

/-- Mirrors `Message.ToMessageInfo`. -/
def Message.toMessageInfo (m : Message) : MessageInfo :=
  ⟨m.conversationId, m.seq, m.content⟩

/-- Mirrors `entity.ConversationInfo`, the response shape of the
conversation read operations. -/
structure ConversationInfo where
  conversationId : String
  conversationType : Int
  peerUserId : String
  groupId : String
  recvMsgOpt : Int
  isPinned : Bool
  unreadCount : Int
  maxSeq : Int
  readSeq : Int
  updatedAt : Int
  lastMessage : Option MessageInfo
  deriving DecidableEq, Repr

/-- Mirrors `entity.ConversationSeq` (per-conversation counter row). -/
structure SeqConversation where
  maxSeq : Int
  deriving DecidableEq, Repr

/-- Mirrors `entity.SeqUser` (per-user read cursor row). -/
structure SeqUser where
  readSeq : Int
  deriving DecidableEq, Repr

/-- Cursor of the paginated conversation list
(`service.ConversationListCursor`). -/
structure ConversationListCursor where
  updatedAt : Int
  conversationId : String
  deriving DecidableEq, Repr

/-- Paginated conversation list result (`service.ConversationListResult`). -/
structure ConversationListResult where
  list : List ConversationInfo
  hasMore : Bool
  nextCursor : Option ConversationListCursor
  deriving DecidableEq, Repr

/-- Repository oracles consumed by `ConversationService`.  Each field stands
for one repository method; `Except Err` carries the Go error channel.
The page query `getUserConversationsWithSeqPage` is exposed through
`pageRows` (the owner's full cursor-filtered row ordering) plus `pageErr`:
a call with SQL `LIMIT n` returns the first `n` rows of that ordering, as
the spec's pagination contract requires (`Fetch limit+1`). -/
structure Repos where
  getByOwnerAndConvId : String → String → Except Err (Option ConversationRow)
  getConversationSeqInfo : String → Except Err (Option SeqConversation)
  getSeqUser : String → String → Except Err (Option SeqUser)
  pageRows : String → Int → String → List ConversationWithSeq
  pageErr : Bool
  batchGetByConvSeq : List (String × Int) → Except Err (List (String × Message))

/-- Mirrors `repository.ConversationRepo.GetUserConversationsWithSeqPage`:
returns the first `n` rows of the owner's cursor-filtered ordering, or the
repository error. -/
def Repos.getUserConversationsWithSeqPage (repos : Repos) (userId : String)
    (n : Int) (cursorUpdatedAt : Int) (cursorConversationId : String) :
    Except Err (List ConversationWithSeq) :=
  if repos.pageErr then .error .internalServer
  else .ok ((repos.pageRows userId cursorUpdatedAt cursorConversationId).take n.toNat)

namespace ConversationService

/-- Mirrors `service.DefaultConversationListLimit`. -/
def DefaultConversationListLimit : Int := 20

/-- Mirrors `service.MaxConversationListLimit`. -/
def MaxConversationListLimit : Int := 100

/-- Mirrors `ConversationService.GetConversation`
(service/conversation.go lines 145–185).  The two seq lookups discard their
error channel exactly as the Go code does (`seqConv, _ := ...`), and the
unread count is clamped at zero. -/
def GetConversation (repos : Repos) (userId conversationId : String) :
    Except Err ConversationInfo :=
  match repos.getByOwnerAndConvId userId conversationId with
  | .error _ => .error .internalServer
  | .ok none => .error .convNotFound
  | .ok (some conv) =>
    let seqConv := (repos.getConversationSeqInfo conversationId).toOption.getD none
    let seqUser := (repos.getSeqUser userId conversationId).toOption.getD none
    let maxSeq := match seqConv with | some s => s.maxSeq | none => 0
    let readSeq := match seqUser with | some u => u.readSeq | none => 0
    let unreadCount := if maxSeq - readSeq < 0 then 0 else maxSeq - readSeq
    .ok
      { conversationId := conv.conversationId
        conversationType := conv.conversationType
        peerUserId := conv.peerUserId
        groupId := conv.groupId
        recvMsgOpt := conv.recvMsgOpt
        isPinned := conv.isPinned
        unreadCount := unreadCount
        maxSeq := maxSeq
        readSeq := readSeq
        updatedAt := conv.updatedAt
        lastMessage := none }

/-- Mirrors `ConversationService.GetMaxReadSeq`
(service/conversation.go lines 225–237).  The Go code dereferences the
conversation-seq row unconditionally after a nil error, so a `nil` row with
a `nil` error (a run-time panic in Go) is embedded as an error outcome; the
user-seq lookup discards its error channel (`seqUser, _ := ...`). -/
def GetMaxReadSeq (repos : Repos) (userId conversationId : String) :
    Except Err (Int × Int) :=
  match repos.getConversationSeqInfo conversationId with
  | .error e => .error e
  | .ok none => .error .internalServer
  | .ok (some seqConv) =>
    let readSeq :=
      match (repos.getSeqUser userId conversationId).toOption.getD none with
      | some u => u.readSeq
      | none => 0
    .ok (seqConv.maxSeq, readSeq)

/-- Mirrors `ConversationService.buildConversationInfos`
(service/conversation.go lines 100–142).  The batched last-message map is an
association list looked up by conversation id. -/
def buildConversationInfos (repos : Repos) (withLastMessage : Bool)
    (convWithSeqs : List ConversationWithSeq) :
    Except Err (List ConversationInfo) :=
  let build : (String → Option Message) → List ConversationInfo := fun lastMsgMap =>
    convWithSeqs.map fun conv =>
      { conversationId := conv.conversationId
        conversationType := conv.conversationType
        peerUserId := conv.peerUserId
        groupId := conv.groupId
        recvMsgOpt := conv.recvMsgOpt
        isPinned := conv.isPinned
        unreadCount := conv.unreadCount
        maxSeq := conv.maxSeq
        readSeq := conv.readSeq
        updatedAt := conv.updatedAt
        lastMessage := (lastMsgMap conv.conversationId).map Message.toMessageInfo }
  if withLastMessage then
    let convMaxSeq :=
      (convWithSeqs.filter (fun c => 0 < c.maxSeq)).map fun c => (c.conversationId, c.maxSeq)
    match repos.batchGetByConvSeq convMaxSeq with
    | .error _ => .error .internalServer
    | .ok pairs => .ok (build fun cid => (pairs.lookup cid))
  else
    .ok (build fun _ => none)

/-- Mirrors `ConversationService.GetUserConversationsPage`
(service/conversation.go lines 60–98): clamp the limit, fetch `limit+1`
rows, cut back to `limit` when more were found, and emit the last returned
row's `(updated_at, conversation_id)` as the next cursor. -/
def GetUserConversationsPage (repos : Repos) (userId : String)
    (withLastMessage : Bool) (limit : Int)
    (cursorUpdatedAt : Int) (cursorConversationId : String) :
    Except Err ConversationListResult :=
  let limit := if limit ≤ 0 then DefaultConversationListLimit else limit
  let limit := if limit > MaxConversationListLimit then MaxConversationListLimit else limit
  match repos.getUserConversationsWithSeqPage userId (limit + 1)
      cursorUpdatedAt cursorConversationId with
  | .error _ => .error .internalServer
  | .ok fetched =>
    let hasMore := (fetched.length : Int) > limit
    let convWithSeqs := if hasMore then fetched.take limit.toNat else fetched
    match buildConversationInfos repos withLastMessage convWithSeqs with
    | .error e => .error e
    | .ok list =>
      let nextCursor :=
        if hasMore ∧ convWithSeqs ≠ [] then
          (convWithSeqs.getLast?).map fun last =>
            ConversationListCursor.mk last.updatedAt last.conversationId
        else none
      .ok { list := list, hasMore := hasMore, nextCursor := nextCursor }

end ConversationService

/-- Mirrors Go `strconv.ParseInt(s, 10, 64)`: optional sign followed by
decimal digits.  The 64-bit range check is not modelled; the embedded
callers never approach it. -/
def parseInt64 (s : String) : Option Int :=
  match s.toList with
  | '+' :: rest => (parseNatDigits rest).map fun n => (n : Int)
  | '-' :: rest => (parseNatDigits rest).map fun n => -(n : Int)
  | cs => (parseNatDigits cs).map fun n => (n : Int)

/-- Mirrors the Go idiom `v, _ := strconv.ParseInt(s, 10, 64)`: the error is
discarded and the zero value is used. -/
def parseInt64OrZero (s : String) : Int := (parseInt64 s).getD 0

namespace ConversationHandler

/-- Mirrors `ConversationHandler.GetMaxReadSeq`
(handler/conversation.go): reject a missing user or conversation id, call
the service, and clamp `max_seq - read_seq` at zero.  The result triple is
`(max_seq, read_seq, unread_count)` as placed in the response map. -/
def GetMaxReadSeq (repos : Repos) (userId conversationId : String) :
    Except Err (Int × Int × Int) :=
  if userId = "" then .error .unauthorized
  else if conversationId = "" then .error .invalidParam
  else
    match ConversationService.GetMaxReadSeq repos userId conversationId with
    | .error e => .error e
    | .ok (maxSeq, readSeq) =>
      let unreadCount := if maxSeq - readSeq < 0 then 0 else maxSeq - readSeq
      .ok (maxSeq, readSeq, unreadCount)

/-- Mirrors `ConversationHandler.GetUnreadCount`
(handler/conversation.go): the `read_seq` query value is parsed with its
error discarded, a zero value falls back to the stored read seq, and the
unread count is clamped at zero. -/
def GetUnreadCount (repos : Repos) (userId conversationId readSeqStr : String) :
    Except Err Int :=
  if userId = "" then .error .unauthorized
  else if conversationId = "" then .error .invalidParam
  else
    let readSeqQuery := parseInt64OrZero readSeqStr
    match ConversationService.GetMaxReadSeq repos userId conversationId with
    | .error e => .error e
    | .ok (maxSeq, currentReadSeq) =>
      let readSeq := if readSeqQuery = 0 then currentReadSeq else readSeqQuery
      .ok (if maxSeq - readSeq < 0 then 0 else maxSeq - readSeq)

/-- Mirrors `ConversationHandler.GetConversationList`
(handler/conversation.go): an authenticated user is required, a limit below
zero or above `MaxConversationListLimit` is rejected as `InvalidParam`, a
half-specified cursor is rejected, and otherwise the service call is
forwarded.  JSON binding failures are outside the embedding (the request
fields arrive already decoded). -/
def GetConversationList (repos : Repos) (userId : String)
    (withLastMessage : Option Bool) (limit : Int)
    (cursorUpdatedAt : Int) (cursorConversationId : String) :
    Except Err ConversationListResult :=
  if userId = "" then .error .unauthorized
  else
    let wlm := withLastMessage.getD false
    if limit < 0 ∨ limit > ConversationService.MaxConversationListLimit then
      .error .invalidParam
    else if cursorUpdatedAt > 0 ∧ cursorConversationId = "" then
      .error .invalidParam
    else if cursorConversationId ≠ "" ∧ cursorUpdatedAt ≤ 0 then
      .error .invalidParam
    else
      ConversationService.GetUserConversationsPage repos userId wlm limit
        cursorUpdatedAt cursorConversationId

end ConversationHandler

/-! ## Conversation settings update (C8) -/

/-- One entry of the Go `updates` map built by
`ConversationService.UpdateConversation`; the key strings are
`"recv_msg_opt"` and `"is_pinned"`. -/
inductive FieldUpdate where
  | recvMsgOpt (v : Int)
  | isPinned (v : Bool)
  deriving DecidableEq, Repr

/-- Mirrors `service.UpdateConversationRequest` (two optional fields). -/
structure UpdateConversationRequest where
  recvMsgOpt : Option Int
  isPinned : Option Bool
  deriving DecidableEq, Repr

/-- Mirrors the `updates` map construction in
`ConversationService.UpdateConversation`: one entry per present field. -/
def buildConversationUpdates (req : UpdateConversationRequest) : List FieldUpdate :=
  (match req.recvMsgOpt with | some v => [.recvMsgOpt v] | none => []) ++
  (match req.isPinned with | some v => [.isPinned v] | none => [])

/-- Applies one update-map entry to a conversation row, as the repository
`UPDATE` would. -/
def applyFieldUpdate (row : ConversationRow) : FieldUpdate → ConversationRow
  | .recvMsgOpt v => { row with recvMsgOpt := v }
  | .isPinned v => { row with isPinned := v }

/-- Storage state for the update path: the owner-scoped conversation table
plus an oracle flag saying whether the repository `Update` call succeeds. -/
structure UpdateStore where
  rows : String → String → Option ConversationRow
  updateOk : Bool

/-- Mirrors `repository.ConversationRepo.Update`: applies the update map to
the addressed row, or fails per the oracle flag. -/
def UpdateStore.repoUpdate (st : UpdateStore) (userId conversationId : String)
    (updates : List FieldUpdate) : Option UpdateStore :=
  if st.updateOk then
    some { st with
      rows := fun u c =>
        if u = userId ∧ c = conversationId then
          (st.rows u c).map fun row => updates.foldl applyFieldUpdate row
        else st.rows u c }
  else none

/-- Mirrors `ConversationService.UpdateConversation`
(service/conversation.go lines 194–213).  The third component records every
storage `Update` invocation with the update map it carried; an empty map
returns success before any storage call. -/
def UpdateConversation (st : UpdateStore) (userId conversationId : String)
    (req : UpdateConversationRequest) :
    Except Err Unit × UpdateStore × List (List FieldUpdate) :=
  let updates := buildConversationUpdates req
  if updates.isEmpty then (.ok (), st, [])
  else
    match st.repoUpdate userId conversationId updates with
    | some st2 => (.ok (), st2, [updates])
    | none => (.error .internalServer, st, [updates])

/-! ## WebSocket client connection (gateway client_conn.go) -/

/-- Errors returned by the connection wrapper: `gateway.ErrConnClosed` and
`gateway.ErrWriteChannelFull`. -/
inductive ConnErr where
  | connClosed
  | writeChannelFull
  deriving DecidableEq, Repr

/-- State of one `gateway.WebsocketClientConn`.  The bounded write channel
is its queued frame list plus a capacity; `closed` is the flag guarded by
`writeMu`, and the two close markers record that `close(writeChan)` and
`close(closeChan)` have run (the latter makes the write loop exit and close
the socket). -/
structure ConnState where
  writeChan : List (List Nat)
  chanCapacity : Nat
  closed : Bool
  writeChanClosed : Bool
  closeChanClosed : Bool
  deriving DecidableEq, Repr

/-- Mirrors `gateway.NewWebSocketClientConn`: a fresh connection with an
empty 256-slot buffered write channel. -/
def NewWebSocketClientConn : ConnState :=
  { writeChan := [], chanCapacity := 256, closed := false,
    writeChanClosed := false, closeChanClosed := false }

/-- Mirrors `WebsocketClientConn.WriteMessage`
(client_conn.go lines 104–120): under the enqueue mutex, a closed
connection returns `ErrConnClosed`; otherwise a non-blocking channel send
either enqueues the frame or returns `ErrWriteChannelFull` when the buffer
is full, leaving the state untouched. -/
def WriteMessage (c : ConnState) (data : List Nat) :
    Except ConnErr Unit × ConnState :=
  if c.closed then (.error .connClosed, c)
  else if c.writeChan.length < c.chanCapacity then
    (.ok (), { c with writeChan := c.writeChan ++ [data] })
  else (.error .writeChannelFull, c)

/-- Mirrors `WebsocketClientConn.Close` (client_conn.go lines 122–133):
`sync.Once` runs the body at most once — the body is the only writer of
`closed`, so the once-guard coincides with that flag — sets `closed`,
closes both channels, and the function always returns `nil`. -/
def Close (c : ConnState) : Except ConnErr Unit × ConnState :=
  if c.closed then (.ok (), c)
  else (.ok (), { c with closed := true, writeChanClosed := true, closeChanClosed := true })

/-! ## ASCII string helpers for the middleware embedding

Go's `strings` helpers are modelled on the ASCII subset, which covers every
service name, header and hex digest the middleware compares. -/

/-- Mirrors `strings.ToLower` on ASCII input. -/
def toLowerStr (s : String) : String := String.mk (s.toList.map Char.toLower)

/-- Mirrors `strings.ToUpper` on ASCII input. -/
def toUpperStr (s : String) : String := String.mk (s.toList.map Char.toUpper)

/-- Mirrors `strings.TrimSpace` on ASCII whitespace. -/
def trimSpace (s : String) : String :=
  String.mk (((s.toList.dropWhile Char.isWhitespace).reverse.dropWhile
    Char.isWhitespace).reverse)

/-- Mirrors `strings.EqualFold` restricted to ASCII simple folding. -/
def equalFold (s t : String) : Bool := toLowerStr s = toLowerStr t

/-! ## SHA-256 and HMAC (crypto/sha256, crypto/hmac)

Bytes and 32-bit words are naturals reduced modulo `2^8` / `2^32` where
overflow matters; this is the FIPS 180-4 computation the Go standard
library performs. -/

/-- Reduces a word modulo `2^32`. -/
def w32 (n : Nat) : Nat := n % 4294967296

/-- Right-rotation of a 32-bit word. -/
def rotr32 (n x : Nat) : Nat := w32 ((x >>> n) ||| (x <<< (32 - n)))

/-- Big sigma-0 of the SHA-256 round function. -/
def bigSigma0 (x : Nat) : Nat :=
  (rotr32 2 x) ^^^ ((rotr32 13 x) ^^^ (rotr32 22 x))

/-- Big sigma-1 of the SHA-256 round function. -/
def bigSigma1 (x : Nat) : Nat :=
  (rotr32 6 x) ^^^ ((rotr32 11 x) ^^^ (rotr32 25 x))

/-- Small sigma-0 of the SHA-256 message schedule. -/
def smallSigma0 (x : Nat) : Nat :=
  (rotr32 7 x) ^^^ ((rotr32 18 x) ^^^ (x >>> 3))

/-- Small sigma-1 of the SHA-256 message schedule. -/
def smallSigma1 (x : Nat) : Nat :=
  (rotr32 17 x) ^^^ ((rotr32 19 x) ^^^ (x >>> 10))

/-- Round constants of SHA-256 (FIPS 180-4 table, written in decimal). -/
def sha256K : List Nat :=
  [1116352408, 1899447441, 3049323471, 3921009573, 961987163,
   1508970993, 2453635748, 2870763221, 3624381080, 310598401,
   607225278, 1426881987, 1925078388, 2162078206, 2614888103,
   3248222580, 3835390401, 4022224774, 264347078, 604807628,
   770255983, 1249150122, 1555081692, 1996064986, 2554220882,
   2821834349, 2952996808, 3210313671, 3336571891, 3584528711,
   113926993, 338241895, 666307205, 773529912, 1294757372,
   1396182291, 1695183700, 1986661051, 2177026350, 2456956037,
   2730485921, 2820302411, 3259730800, 3345764771, 3516065817,
   3600352804, 4094571909, 275423344, 430227734, 506948616,
   659060556, 883997877, 958139571, 1322822218, 1537002063,
   1747873779, 1955562222, 2024104815, 2227730452, 2361852424,
   2428436474, 2756734187, 3204031479, 3329325298]

/-- Initial hash state of SHA-256 (FIPS 180-4, written in decimal). -/
def sha256InitH : List Nat :=
  [1779033703, 3144134277, 1013904242, 2773480762,
   1359893119, 2600822924, 528734635, 1541459225]

/-- Big-endian 8-byte encoding of a length in bits. -/
def be64 (n : Nat) : List Nat :=
  [(n >>> 56) % 256, (n >>> 48) % 256, (n >>> 40) % 256, (n >>> 32) % 256,
   (n >>> 24) % 256, (n >>> 16) % 256, (n >>> 8) % 256, n % 256]

/-- FIPS padding: a 0x80 byte, zeros to 56 mod 64, then the bit length. -/
def sha256Pad (msg : List Nat) : List Nat :=
  msg ++ 128 :: (List.replicate ((119 - msg.length % 64) % 64) 0 ++ be64 (8 * msg.length))

/-- Splits a list into consecutive chunks of `size` elements; the fuel is
any bound on the number of chunks (the list length suffices). -/
def chunkBy (size : Nat) : Nat → List Nat → List (List Nat)
  | 0, _ => []
  | _, [] => []
  | fuel + 1, l => l.take size :: chunkBy size fuel (l.drop size)

/-- Big-endian 32-bit word from a 4-byte chunk. -/
def be32Word (bs : List Nat) : Nat := bs.foldl (fun a b => 256 * a + b) 0

/-- Appends the next word of the SHA-256 message schedule. -/
def scheduleStep (ws : List Nat) : List Nat :=
  let t := ws.length
  ws ++ [w32 (smallSigma1 (ws.getD (t - 2) 0) + ws.getD (t - 7) 0 +
    smallSigma0 (ws.getD (t - 15) 0) + ws.getD (t - 16) 0)]

/-- Iterates `scheduleStep`; 48 rounds extend 16 words to 64. -/
def extendSchedule : Nat → List Nat → List Nat
  | 0, ws => ws
  | n + 1, ws => extendSchedule n (scheduleStep ws)

/-- One SHA-256 compression round on the `[a,b,c,d,e,f,g,h]` state. -/
def compressStep (st : List Nat) (kw : Nat × Nat) : List Nat :=
  match st with
  | [a, b, c, d, e, f, g, h] =>
    let t1 := w32 (h + bigSigma1 e + ((e &&& f) ^^^ ((e ^^^ 4294967295) &&& g)) + kw.1 + kw.2)
    let t2 := w32 (bigSigma0 a + ((a &&& b) ^^^ (a &&& c) ^^^ (b &&& c)))
    [w32 (t1 + t2), a, b, c, w32 (d + t1), e, f, g]
  | _ => st

/-- Processes one 64-byte block into the running hash state. -/
def sha256Block (h : List Nat) (block : List Nat) : List Nat :=
  let ws := extendSchedule 48 ((chunkBy 4 block.length block).map be32Word)
  let st := (sha256K.zip ws).foldl compressStep h
  (h.zip st).map fun p => w32 (p.1 + p.2)

/-- SHA-256 of a byte list, as a 32-byte list. -/
def sha256 (msg : List Nat) : List Nat :=
  let padded := sha256Pad msg
  let hFinal := (chunkBy 64 padded.length padded).foldl sha256Block sha256InitH
  (hFinal.map fun w => [(w >>> 24) % 256, (w >>> 16) % 256, (w >>> 8) % 256, w % 256]).flatten

/-- HMAC-SHA256 (crypto/hmac with a sha256.New inner hash). -/
def hmacSha256 (key msg : List Nat) : List Nat :=
  let k0 := if 64 < key.length then sha256 key else key
  let kPadded := k0 ++ List.replicate (64 - k0.length) 0
  let ipadKey := kPadded.map fun b => b ^^^ 54
  let opadKey := kPadded.map fun b => b ^^^ 92
  sha256 (opadKey ++ sha256 (ipadKey ++ msg))

/-- Lowercase hex digit, as Go `encoding/hex` emits. -/
def hexDigitChar (n : Nat) : Char :=
  if n < 10 then Char.ofNat (48 + n) else Char.ofNat (87 + n)

/-- Mirrors `hex.EncodeToString`: lowercase hex of a byte list. -/
def hexEncode (bs : List Nat) : String :=
  String.mk (bs.map fun b => [hexDigitChar (b / 16), hexDigitChar (b % 16)]).flatten

/-- Byte view of a string; Go strings are UTF-8 and every string the
middleware signs or compares is ASCII, where the code points are the
bytes. -/
def strBytes (s : String) : List Nat := s.toList.map Char.toNat

/-! ## Internal service-to-service auth (middleware/internal_auth.go) -/

/-- Mirrors `config.InternalAuthConfig` as consumed by the middleware. -/
structure InternalAuthConfig where
  enabled : Bool
  secret : String
  allowedServices : List String
  maxSkewSeconds : Int
  deriving Repr

/-- Headers and request data read by `validateInternalRequest`. -/
structure InternalRequest where
  serviceNameHeader : String
  timestampHeader : String
  signatureHeader : String
  method : String
  path : String
  body : List Nat
  deriving Repr

/-- Mirrors `absInt64` (internal_auth.go lines 152–157). -/
def absInt64 (v : Int) : Int := if v < 0 then -v else v

/-- Mirrors `signInternalRequest` (internal_auth.go lines 124–138):
lowercase hex of the HMAC-SHA256 of the newline-joined canonical payload,
whose last line is the lowercase hex SHA-256 of the body. -/
def signInternalRequest (secret serviceName timestamp method path : String)
    (body : List Nat) : String :=
  let bodyHash := hexEncode (sha256 body)
  let payload :=
    String.intercalate "\n" [serviceName, timestamp, toUpperStr method, path, bodyHash]
  hexEncode (hmacSha256 (strBytes secret) (strBytes payload))

/-- Mirrors `isServiceAllowed` (internal_auth.go lines 140–150): an empty
allow-list admits every service; otherwise entries are trimmed and compared
case-insensitively. -/
def isServiceAllowed (serviceName : String) (allowed : List String) : Bool :=
  if allowed.isEmpty then true
  else allowed.any fun s => equalFold (trimSpace s) serviceName

/-- Mirrors `validateInternalRequest` (internal_auth.go lines 79–122).
The configuration is `none` when `config.GlobalConfig` is nil; `now` is the
unix-seconds clock reading.  `hmac.Equal` on the lowercased signature and
the expected lowercase hex digest is byte equality, hence string equality
here. -/
def validateInternalRequest : Option InternalAuthConfig → Int → InternalRequest →
    Except Err String
  | none, _, _ => .error .forbidden
  | some cfg, now, req =>
    if !cfg.enabled then .error .forbidden
    else if trimSpace cfg.secret = "" then .error .forbidden
    else
      let serviceName := trimSpace req.serviceNameHeader
      let tsStr := trimSpace req.timestampHeader
      let signature := trimSpace req.signatureHeader
      if serviceName = "" ∨ tsStr = "" ∨ signature = "" then .error .unauthorized
      else if !isServiceAllowed serviceName cfg.allowedServices then .error .forbidden
      else
        match parseInt64 tsStr with
        | none => .error .unauthorized
        | some ts =>
          if absInt64 (now - ts) > cfg.maxSkewSeconds then .error .unauthorized
          else if toLowerStr signature
              = signInternalRequest cfg.secret serviceName tsStr req.method req.path req.body then
            .ok serviceName
          else .error .unauthorized

/-! ## Multi-issuer token verification (pkg/jwt multi_issuer.go) -/

/-- External-issuer claims shape (`jwt.ExternalClaims`): only the mapped
`user_id` field matters to the embedding. -/
structure ExternalClaims where
  userId : String
  deriving DecidableEq, Repr

/-- Native claims shape (`jwt.Claims`) restricted to the fields the
verifier writes. -/
structure Claims where
  userId : String
  platformId : Int
  deriving DecidableEq, Repr

/-- Platform id the repository uses for the Web platform:
`internal_auth.go` line 60 reads `platformId := 5 // Web default`, and every
web client in the gateway tests connects with `platform_id=5`. -/
def webPlatformId : Int := 5

/-- Mirrors `jwt.ParseMultiIssuer`: the native parse result is tried first;
on failure the external parse result is converted, copying `user_id`
directly and setting `PlatformId` to the constant `1`.  The two JWT library
parses are oracles (`none` = parse failed or token invalid), and the
failure errors are collapsed into `tokenInvalid`. -/
def ParseMultiIssuer (nativeResult : Option Claims)
    (externalResult : Option ExternalClaims) : Except Err Claims :=
  match nativeResult with
  | some claims => .ok claims
  | none =>
    match externalResult with
    | some extClaims => .ok { userId := extClaims.userId, platformId := 1 }
    | none => .error .tokenInvalid

/-! ## WebSocket envelope dispatch (gateway ws_server.go) -/

/-- Mirrors the gateway `WSRequest` envelope. -/
structure WSRequest where
  reqIdentifier : Int
  msgIncr : String
  operationId : String
  sendId : String
  data : List Nat
  deriving DecidableEq, Repr

/-- Mirrors the gateway `WSResponse` envelope. -/
structure WSResponse where
  reqIdentifier : Int
  msgIncr : String
  operationId : String
  errCode : Int
  errMsg : String
  data : List Nat
  deriving DecidableEq, Repr

/-- Message of the gateway `ErrInvalidProtocol` error, as asserted by
`TestWsServer_HandleConnection_DirectWebSocketMessage`. -/
def errInvalidProtocolMsg : String := "invalid protocol"

/-- Modelled from the spec: the numeric code attached to the
`ErrInvalidProtocol` response; the spec and tests pin it only as non-zero. -/
def errInvalidProtocolCode : Int := 1002

/-- Modelled from the spec: the gateway's `WsServer` envelope dispatch is
not part of the repository snapshot (only its tests are).  Per the spec, a
registry maps `req_identifier` to a handler built at startup; an envelope
whose opcode is not registered yields an `ErrInvalidProtocol` response that
echoes `req_identifier` and `msg_incr`, and no handler runs, so the gateway
state is untouched. -/
def handleEnvelope {σ : Type} (registry : Int → Option (σ → WSRequest → σ × WSResponse))
    (st : σ) (req : WSRequest) : σ × WSResponse :=
  match registry req.reqIdentifier with
  | some handler => handler st req
  | none =>
    (st,
      { reqIdentifier := req.reqIdentifier
        msgIncr := req.msgIncr
        operationId := req.operationId
        errCode := errInvalidProtocolCode
        errMsg := errInvalidProtocolMsg
        data := [] })

/-- Substring containment, used to state the `err_msg` check of scenario
S3. -/
def strContainsSub (hay needle : String) : Prop :=
  ∃ pre post, hay = pre ++ needle ++ post

/-! ## Claim theorems -/

/-- C1: for every user and conversation, the unread count returned by the
conversation read operations — `ConversationService.GetConversation`, the
`GetMaxReadSeq` handler and the `GetUnreadCount` handler — equals
`max 0 (max_seq - read_seq)` for the max/read seq values those operations
report (for `GetUnreadCount`, the effective read seq is the non-zero query
value, else the stored one); in particular the unread count is never
negative, even when the read seq exceeds the max seq. -/
theorem C1_unread_count_clamped (repos : Repos)
    (userId conversationId readSeqStr : String) :
    (∀ info, ConversationService.GetConversation repos userId conversationId = .ok info →
      info.unreadCount = max 0 (info.maxSeq - info.readSeq) ∧ 0 ≤ info.unreadCount) ∧
    (∀ maxSeq readSeq unread,
      ConversationHandler.GetMaxReadSeq repos userId conversationId
        = .ok (maxSeq, readSeq, unread) →
      unread = max 0 (maxSeq - readSeq) ∧ 0 ≤ unread) ∧
    (∀ maxSeq cur unread,
      ConversationService.GetMaxReadSeq repos userId conversationId = .ok (maxSeq, cur) →
      ConversationHandler.GetUnreadCount repos userId conversationId readSeqStr
        = .ok unread →
      unread = max 0 (maxSeq -
        (if parseInt64OrZero readSeqStr = 0 then cur else parseInt64OrZero readSeqStr)) ∧
      0 ≤ unread) := by
  refine ⟨?_, ?_, ?_⟩
  · intro info hok
    unfold ConversationService.GetConversation at hok
    cases hrow : repos.getByOwnerAndConvId userId conversationId with
    | error e => rw [hrow] at hok; exact absurd hok (by simp)
    | ok rowOpt =>
      cases rowOpt with
      | none => rw [hrow] at hok; exact absurd hok (by simp)
      | some conv =>
        rw [hrow] at hok
        simp only [Except.ok.injEq] at hok
        subst hok
        simp only []
        constructor
        · split <;> omega
        · split <;> omega
  · intro maxSeq readSeq unread hok
    unfold ConversationHandler.GetMaxReadSeq at hok
    by_cases hu : userId = "" <;> simp only [hu, if_true, if_false] at hok
    · exact absurd hok (by simp)
    · by_cases hc : conversationId = "" <;> simp only [hc, if_true, if_false] at hok
      · exact absurd hok (by simp)
      · cases hsvc : ConversationService.GetMaxReadSeq repos userId conversationId with
        | error e => rw [hsvc] at hok; exact absurd hok (by simp)
        | ok pair =>
          obtain ⟨m, r⟩ := pair
          rw [hsvc] at hok
          simp only [Except.ok.injEq, Prod.mk.injEq] at hok
          obtain ⟨rfl, rfl, rfl⟩ := hok
          constructor
          · split <;> omega
          · split <;> omega
  · intro maxSeq cur unread hsvc hok
    unfold ConversationHandler.GetUnreadCount at hok
    by_cases hu : userId = "" <;> simp only [hu, if_true, if_false] at hok
    · exact absurd hok (by simp)
    · by_cases hc : conversationId = "" <;> simp only [hc, if_true, if_false] at hok
      · exact absurd hok (by simp)
      · rw [hsvc] at hok
        simp only [Except.ok.injEq] at hok
        subst hok
        constructor
        · split <;> omega
        · split <;> omega

/-- Concrete repository oracle exercising `read_seq > max_seq`: the stored
max seq is 5 while the user's read cursor is 7. -/
def demoReposC1 : Repos where
  getByOwnerAndConvId := fun _ _ =>
    .ok (some ⟨"c1", 1, "peer", "", 0, false, 100⟩)
  getConversationSeqInfo := fun _ => .ok (some ⟨5⟩)
  getSeqUser := fun _ _ => .ok (some ⟨7⟩)
  pageRows := fun _ _ _ => []
  pageErr := false
  batchGetByConvSeq := fun _ => .ok []

theorem C1_unread_count_clamped_witness :
    ConversationService.GetConversation demoReposC1 "u1" "c1"
      = .ok ⟨"c1", 1, "peer", "", 0, false, 0, 5, 7, 100, none⟩ ∧
    (ConversationInfo.mk "c1" 1 "peer" "" 0 false 0 5 7 100 none).unreadCount
      = max 0 ((5 : Int) - 7) ∧
    (0 : Int) ≤ (ConversationInfo.mk "c1" 1 "peer" "" 0 false 0 5 7 100 none).unreadCount := by
  refine ⟨rfl, ?_⟩
  have h := (C1_unread_count_clamped demoReposC1 "u1" "c1" "").1
    ⟨"c1", 1, "peer", "", 0, false, 0, 5, 7, 100, none⟩ rfl
  exact h

/-- Clamp applied by `ConversationService.GetUserConversationsPage` to the
requested limit (the two shadowing rebindings at the top of the Go
function). -/
def clampListLimit (limit : Int) : Int :=
  let l := if limit ≤ 0 then ConversationService.DefaultConversationListLimit else limit
  if l > ConversationService.MaxConversationListLimit then
    ConversationService.MaxConversationListLimit
  else l

theorem clampListLimit_bounds (limit : Int) :
    1 ≤ clampListLimit limit ∧ clampListLimit limit ≤ 100 := by
  unfold clampListLimit ConversationService.DefaultConversationListLimit
    ConversationService.MaxConversationListLimit
  dsimp only []
  split <;> split <;> omega

theorem buildConversationInfos_length (repos : Repos) (wlm : Bool)
    (l : List ConversationWithSeq) (out : List ConversationInfo)
    (h : ConversationService.buildConversationInfos repos wlm l = .ok out) :
    out.length = l.length := by
  unfold ConversationService.buildConversationInfos at h
  cases wlm with
  | false =>
    simp only [Bool.false_eq_true, if_false, Except.ok.injEq] at h
    subst h
    simp
  | true =>
    simp only [if_true] at h
    cases hb : repos.batchGetByConvSeq
        ((l.filter fun c => decide (0 < c.maxSeq)).map fun c => (c.conversationId, c.maxSeq)) with
    | error e => rw [hb] at h; exact absurd h (by simp)
    | ok pairs =>
      rw [hb] at h
      simp only [Except.ok.injEq] at h
      subst h
      simp

theorem getUserConversationsPage_ok (repos : Repos) (userId : String) (wlm : Bool)
    (limit cursorUpdatedAt : Int) (cursorConversationId : String)
    (res : ConversationListResult)
    (h : ConversationService.GetUserConversationsPage repos userId wlm limit
      cursorUpdatedAt cursorConversationId = .ok res) :
    res.list.length = min (clampListLimit limit).toNat
        (repos.pageRows userId cursorUpdatedAt cursorConversationId).length ∧
    ((res.hasMore = true) ↔ clampListLimit limit <
        ((repos.pageRows userId cursorUpdatedAt cursorConversationId).length : Int)) ∧
    res.nextCursor = (if res.hasMore then
        (((repos.pageRows userId cursorUpdatedAt cursorConversationId).take
            (clampListLimit limit).toNat).getLast?).map
          (fun c => ConversationListCursor.mk c.updatedAt c.conversationId)
      else none) ∧
    res.nextCursor.isSome = res.hasMore := by
  obtain ⟨hk1, hk100⟩ := clampListLimit_bounds limit
  unfold ConversationService.GetUserConversationsPage
    Repos.getUserConversationsWithSeqPage at h
  simp only [] at h
  rw [show (if (if limit ≤ 0 then ConversationService.DefaultConversationListLimit
        else limit) > ConversationService.MaxConversationListLimit then
      ConversationService.MaxConversationListLimit
      else (if limit ≤ 0 then ConversationService.DefaultConversationListLimit
        else limit)) = clampListLimit limit from rfl] at h
  set rows := repos.pageRows userId cursorUpdatedAt cursorConversationId with hrows
  set k := clampListLimit limit with hkdef
  have hknat : (k + 1).toNat = k.toNat + 1 := by omega
  have hkpos : 1 ≤ k.toNat := by omega
  split at h
  · exact absurd h (by simp)
  next fetched heq =>
    by_cases hpe : repos.pageErr = true
    · rw [if_pos hpe] at heq
      exact absurd heq (by simp)
    · rw [if_neg hpe] at heq
      simp only [Except.ok.injEq] at heq
      subst heq
      by_cases hm : ((rows.take (k + 1).toNat).length : Int) > k
      · have hmn : k.toNat + 1 ≤ rows.length := by
          rw [List.length_take, hknat] at hm
          omega
        have htt : (rows.take (k + 1).toNat).take k.toNat = rows.take k.toNat := by
          rw [List.take_take]
          congr 1
          omega
        rw [if_pos hm, htt] at h
        have hlen2 : (rows.take k.toNat).length = k.toNat := by
          rw [List.length_take]
          omega
        have hne : rows.take k.toNat ≠ [] := by
          intro hnil
          rw [hnil] at hlen2
          simp at hlen2
          omega
        rw [if_pos (And.intro hm hne)] at h
        cases hb : ConversationService.buildConversationInfos repos wlm
            (rows.take k.toNat) with
        | error e => rw [hb] at h; exact absurd h (by simp)
        | ok list =>
          rw [hb] at h
          simp only [Except.ok.injEq] at h
          subst h
          have hlistlen := buildConversationInfos_length repos wlm _ _ hb
          have hmore : decide (((rows.take (k + 1).toNat).length : Int) > k) = true :=
            decide_eq_true hm
          refine ⟨?_, ?_, ?_, ?_⟩
          · simp only [hlistlen, hlen2]
            omega
          · simp only [hmore, true_iff]
            omega
          · simp only [hmore, if_true]
          · simp only [hmore, if_true]
            obtain ⟨c, hc⟩ := Option.isSome_iff_exists.mp (List.getLast?_isSome.mpr hne)
            rw [hc]
            rfl
      · have hmn : rows.length ≤ k.toNat := by
          rw [List.length_take, hknat] at hm
          omega
        have htt : rows.take (k + 1).toNat = rows := by
          apply List.take_of_length_le
          omega
        rw [if_neg hm, if_neg (fun hc => hm hc.1)] at h
        rw [htt] at h
        cases hb : ConversationService.buildConversationInfos repos wlm rows with
        | error e => rw [hb] at h; exact absurd h (by simp)
        | ok list =>
          rw [hb] at h
          simp only [Except.ok.injEq] at h
          subst h
          have hlistlen := buildConversationInfos_length repos wlm _ _ hb
          have hmore : decide (((rows.take (k + 1).toNat).length : Int) > k) = false :=
            decide_eq_false hm
          rw [htt] at hmore
          refine ⟨?_, ?_, ?_, ?_⟩
          · simp only [hlistlen]
            rw [Nat.min_eq_right hmn]
          · simp only [hmore, Bool.false_eq_true, false_iff]
            rw [htt] at hm
            exact hm
          · simp [hmore]
          · simp [hmore]

/-- Concrete repository oracle for the pagination claims: three conversation
rows in page order. -/
def demoReposC2 : Repos where
  getByOwnerAndConvId := fun _ _ => .ok none
  getConversationSeqInfo := fun _ => .ok none
  getSeqUser := fun _ _ => .ok none
  pageRows := fun _ _ _ =>
    [⟨"c_a", 1, "p1", "", 0, false, 0, 3, 0, 50⟩,
     ⟨"c_b", 1, "p2", "", 0, false, 0, 4, 0, 40⟩,
     ⟨"c_c", 1, "p3", "", 0, false, 0, 5, 0, 30⟩]
  pageErr := false
  batchGetByConvSeq := fun _ => .ok []

/-- C2 counterexample: the claim says an out-of-range limit does not make
the request fail, but `ConversationHandler.GetConversationList` rejects
`limit = 101` and `limit = -1` with `InvalidParam` before the service's
clamp can run. -/
theorem C2_counterexample :
    ConversationHandler.GetConversationList demoReposC2 "u1" none 101 0 ""
      = .error .invalidParam ∧
    ConversationHandler.GetConversationList demoReposC2 "u1" none (-1) 0 ""
      = .error .invalidParam :=
  ⟨rfl, rfl⟩

/-- C2 (amended): at the service layer the limit is clamped to `[1, 100]`
with default 20 (non-positive becomes 20, above 100 becomes 100), the
service fetches `limit+1` rows and returns exactly `min(limit, available)`
rows, `has_more` holds exactly when more than `limit` rows are available,
and `next_cursor` is the last returned row's `(updated_at, conversation_id)`
exactly when `has_more` is true; however the HTTP handler rejects a request
whose limit is below 0 or above 100 with `InvalidParam`, so only `limit = 0`
is defaulted without failing at the request level. -/
theorem C2_page_limit_clamp_amended (repos : Repos) (userId : String)
    (withLastMessage : Option Bool) (wlm : Bool) (limit cursorUpdatedAt : Int)
    (cursorConversationId : String) :
    (limit ≤ 0 → clampListLimit limit = 20) ∧
    (100 < limit → clampListLimit limit = 100) ∧
    (1 ≤ clampListLimit limit ∧ clampListLimit limit ≤ 100) ∧
    (0 < limit → limit ≤ 100 → clampListLimit limit = limit) ∧
    (∀ res, ConversationService.GetUserConversationsPage repos userId wlm limit
        cursorUpdatedAt cursorConversationId = .ok res →
      res.list.length = min (clampListLimit limit).toNat
          (repos.pageRows userId cursorUpdatedAt cursorConversationId).length ∧
      ((res.hasMore = true) ↔ clampListLimit limit <
          ((repos.pageRows userId cursorUpdatedAt cursorConversationId).length : Int)) ∧
      res.nextCursor = (if res.hasMore then
          (((repos.pageRows userId cursorUpdatedAt cursorConversationId).take
              (clampListLimit limit).toNat).getLast?).map
            (fun c => ConversationListCursor.mk c.updatedAt c.conversationId)
        else none) ∧
      res.nextCursor.isSome = res.hasMore) ∧
    (userId ≠ "" → (limit < 0 ∨ 100 < limit) →
      ConversationHandler.GetConversationList repos userId withLastMessage limit
        cursorUpdatedAt cursorConversationId = .error .invalidParam) := by
  refine ⟨?_, ?_, clampListLimit_bounds limit, ?_, ?_, ?_⟩
  · intro hl
    unfold clampListLimit ConversationService.DefaultConversationListLimit
      ConversationService.MaxConversationListLimit
    dsimp only []
    rw [if_pos hl]
    norm_num
  · intro hl
    unfold clampListLimit ConversationService.DefaultConversationListLimit
      ConversationService.MaxConversationListLimit
    dsimp only []
    rw [if_neg (by omega : ¬limit ≤ 0), if_pos (by omega : limit > 100)]
  · intro h0 h100
    unfold clampListLimit ConversationService.DefaultConversationListLimit
      ConversationService.MaxConversationListLimit
    dsimp only []
    rw [if_neg (by omega : ¬limit ≤ 0), if_neg (by omega : ¬limit > 100)]
  · intro res hres
    exact getUserConversationsPage_ok repos userId wlm limit cursorUpdatedAt
      cursorConversationId res hres
  · intro hu hl
    unfold ConversationHandler.GetConversationList
    rw [if_neg hu]
    dsimp only []
    rw [if_pos
      (show limit < 0 ∨ limit > ConversationService.MaxConversationListLimit by
        unfold ConversationService.MaxConversationListLimit
        omega)]

/-- Concrete result of the two-row page over `demoReposC2` at limit 2. -/
def resC2 : ConversationListResult :=
  { list :=
      [⟨"c_a", 1, "p1", "", 0, false, 0, 3, 0, 50, none⟩,
       ⟨"c_b", 1, "p2", "", 0, false, 0, 4, 0, 40, none⟩],
    hasMore := true,
    nextCursor := some ⟨40, "c_b"⟩ }

theorem C2_page_limit_clamp_amended_witness :
    resC2.list.length = min (clampListLimit 2).toNat
        (demoReposC2.pageRows "u1" 0 "").length ∧
    ConversationHandler.GetConversationList demoReposC2 "u1" none 101 0 ""
      = .error .invalidParam :=
  ⟨((C2_page_limit_clamp_amended demoReposC2 "u1" none false 2 0 "").2.2.2.2.1
      resC2 rfl).1,
   (C2_page_limit_clamp_amended demoReposC2 "u1" none false 101 0 "").2.2.2.2.2
      (by decide) (by decide)⟩

/-- C3: for every WebSocket envelope whose `req_identifier` is not a
registered opcode, the gateway responds with the `ErrInvalidProtocol` error
response that echoes the request's `req_identifier` and `msg_incr`
unchanged, carries a non-zero `err_code` and an `err_msg` containing
"invalid protocol", and leaves the gateway state unchanged. -/
theorem C3_unknown_opcode_protocol_error {σ : Type}
    (registry : Int → Option (σ → WSRequest → σ × WSResponse))
    (st : σ) (req : WSRequest)
    (h : registry req.reqIdentifier = none) :
    (handleEnvelope registry st req).1 = st ∧
    (handleEnvelope registry st req).2.reqIdentifier = req.reqIdentifier ∧
    (handleEnvelope registry st req).2.msgIncr = req.msgIncr ∧
    (handleEnvelope registry st req).2.errCode ≠ 0 ∧
    strContainsSub (handleEnvelope registry st req).2.errMsg errInvalidProtocolMsg := by
  unfold handleEnvelope
  rw [h]
  exact ⟨rfl, rfl, rfl, show errInvalidProtocolCode ≠ 0 by decide,
    show strContainsSub errInvalidProtocolMsg errInvalidProtocolMsg from ⟨"", "", by simp⟩⟩

theorem C3_unknown_opcode_protocol_error_witness :
    (handleEnvelope (fun _ => none : Int → Option (Unit → WSRequest → Unit × WSResponse))
      () ⟨9999, "1", "op_direct_ws", "u1", []⟩).2.reqIdentifier = 9999 ∧
    (handleEnvelope (fun _ => none : Int → Option (Unit → WSRequest → Unit × WSResponse))
      () ⟨9999, "1", "op_direct_ws", "u1", []⟩).2.msgIncr = "1" ∧
    (handleEnvelope (fun _ => none : Int → Option (Unit → WSRequest → Unit × WSResponse))
      () ⟨9999, "1", "op_direct_ws", "u1", []⟩).2.errCode ≠ 0 := by
  have h := C3_unknown_opcode_protocol_error
    (fun _ => none : Int → Option (Unit → WSRequest → Unit × WSResponse))
    () ⟨9999, "1", "op_direct_ws", "u1", []⟩ rfl
  exact ⟨h.2.1, h.2.2.1, h.2.2.2.1⟩

/-- C4: internal service-to-service verification accepts a request only if
the (trimmed, lowercased) `X-Signature` header equals
`hex(HMAC-SHA256(secret, "<svc>\n<ts>\n<METHOD>\n<path>\n<hex(sha256(body))>"))`
— a case-insensitive comparison on the hex digits since the expected digest
is lowercase hex — and rejects with `Unauthorized` when the timestamp skew
exceeds the configured maximum, with `Forbidden` when the service is not
allow-listed, and with `Forbidden` when internal auth is disabled. -/
theorem C4_internal_auth_signature (cfg : InternalAuthConfig) (now : Int)
    (req : InternalRequest) (ts : Int) :
    (∀ svc, validateInternalRequest (some cfg) now req = .ok svc →
      svc = trimSpace req.serviceNameHeader ∧
      toLowerStr (trimSpace req.signatureHeader)
        = signInternalRequest cfg.secret (trimSpace req.serviceNameHeader)
            (trimSpace req.timestampHeader) req.method req.path req.body) ∧
    (cfg.enabled = false → validateInternalRequest (some cfg) now req = .error .forbidden) ∧
    (cfg.enabled = true → trimSpace cfg.secret ≠ "" →
      trimSpace req.serviceNameHeader ≠ "" → trimSpace req.timestampHeader ≠ "" →
      trimSpace req.signatureHeader ≠ "" →
      isServiceAllowed (trimSpace req.serviceNameHeader) cfg.allowedServices = false →
      validateInternalRequest (some cfg) now req = .error .forbidden) ∧
    (cfg.enabled = true → trimSpace cfg.secret ≠ "" →
      trimSpace req.serviceNameHeader ≠ "" → trimSpace req.timestampHeader ≠ "" →
      trimSpace req.signatureHeader ≠ "" →
      isServiceAllowed (trimSpace req.serviceNameHeader) cfg.allowedServices = true →
      parseInt64 (trimSpace req.timestampHeader) = some ts →
      absInt64 (now - ts) > cfg.maxSkewSeconds →
      validateInternalRequest (some cfg) now req = .error .unauthorized) := by
  refine ⟨?_, ?_, ?_, ?_⟩
  · intro svc hok
    simp only [validateInternalRequest] at hok
    split at hok
    · exact absurd hok (by simp)
    split at hok
    · exact absurd hok (by simp)
    split at hok
    · exact absurd hok (by simp)
    split at hok
    · exact absurd hok (by simp)
    split at hok
    · exact absurd hok (by simp)
    split at hok
    · exact absurd hok (by simp)
    split at hok
    · simp only [Except.ok.injEq] at hok
      subst hok
      exact ⟨rfl, by assumption⟩
    · exact absurd hok (by simp)
  · intro he
    simp only [validateInternalRequest]
    rw [if_pos (show (!cfg.enabled) = true by simp [he])]
  · intro he hsec hsn hts hsig hallow
    simp only [validateInternalRequest]
    rw [if_neg (show ¬(!cfg.enabled) = true by simp [he]),
      if_neg hsec,
      if_neg (show ¬(trimSpace req.serviceNameHeader = "" ∨
          trimSpace req.timestampHeader = "" ∨ trimSpace req.signatureHeader = "")
        from fun hc => hc.elim hsn fun hc2 => hc2.elim hts hsig),
      if_pos (show (!isServiceAllowed (trimSpace req.serviceNameHeader)
          cfg.allowedServices) = true by simp [hallow])]
  · intro he hsec hsn hts hsig hallow hparse hskew
    simp only [validateInternalRequest]
    rw [if_neg (show ¬(!cfg.enabled) = true by simp [he]),
      if_neg hsec,
      if_neg (show ¬(trimSpace req.serviceNameHeader = "" ∨
          trimSpace req.timestampHeader = "" ∨ trimSpace req.signatureHeader = "")
        from fun hc => hc.elim hsn fun hc2 => hc2.elim hts hsig),
      if_neg (show ¬(!isServiceAllowed (trimSpace req.serviceNameHeader)
          cfg.allowedServices) = true by simp [hallow]),
      hparse]
    simp [hskew]

/-- Concrete internal request for the middleware witnesses. -/
def reqC4 : InternalRequest := ⟨"svc-a", "1000", "ab", "POST", "/x", []⟩

theorem C4_internal_auth_signature_witness :
    validateInternalRequest (some ⟨false, "secret", [], 300⟩) 2000 reqC4
      = .error .forbidden ∧
    validateInternalRequest (some ⟨true, "secret", [], 300⟩) 2000 reqC4
      = .error .unauthorized := by
  refine ⟨(C4_internal_auth_signature ⟨false, "secret", [], 300⟩ 2000 reqC4 0).2.1 rfl, ?_⟩
  exact (C4_internal_auth_signature ⟨true, "secret", [], 300⟩ 2000 reqC4 1000).2.2.2
    rfl (by decide) (by decide) (by decide) (by decide) rfl rfl (by decide)

/-- C5: converting any valid actor (role in {user, agent}, numeric id) to
its canonical string form and parsing it back yields the original actor,
and malformed input strings parse to the distinct `invalidFormat` error
rather than an actor; the concrete conjuncts pin the codec to the
repository's test vectors `u___12` and `ag__34`. -/
theorem C5_actor_roundtrip :
    (∀ a : Actor, Actor.fromIMUserId a.toIMUserId = .ok a) ∧
    Actor.fromIMUserId "bad" = .error .invalidFormat ∧
    Actor.fromIMUserId "" = .error .invalidFormat ∧
    Actor.fromIMUserId "u___" = .error .invalidFormat ∧
    Actor.fromIMUserId "u___12" = .ok ⟨.user, 12⟩ ∧
    Actor.fromIMUserId "ag__34" = .ok ⟨.agent, 34⟩ :=
  ⟨fromIMUserId_toIMUserId, rfl, rfl, rfl, rfl, rfl⟩

/-- C10: `MGetActorFromUserIds` on a list whose elements all parse returns
the nil (empty) actor list — the Go loop validates each element but never
appends to the result slice — and an input containing a malformed element
returns a non-nil error. -/
theorem C10_mget_actors_returns_nil (userIds : List String)
    (h : ∀ uid ∈ userIds, ∃ a, Actor.fromIMUserId uid = .ok a) :
    MGetActorFromUserIds userIds = .ok [] ∧
    MGetActorFromUserIds ["u___1", "bad"] = .error .invalidFormat := by
  constructor
  · revert h
    induction userIds with
    | nil => intro h; rfl
    | cons uid rest ih =>
      intro h
      obtain ⟨a, ha⟩ := h uid (by simp)
      have hrest := ih (fun u hu => h u (by simp [hu]))
      simp only [MGetActorFromUserIds, ha]
      exact hrest
  · rfl

theorem C10_mget_actors_returns_nil_witness :
    MGetActorFromUserIds ["u___12", "ag__34"] = .ok [] :=
  (C10_mget_actors_returns_nil ["u___12", "ag__34"] (by
    intro uid hu
    rcases List.mem_cons.mp hu with rfl | hu2
    · exact ⟨⟨.user, 12⟩, rfl⟩
    · rcases List.mem_cons.mp hu2 with rfl | hu3
      · exact ⟨⟨.agent, 34⟩, rfl⟩
      · exact absurd hu3 (by simp))).1

/-- C6 counterexample: an accepted external token is mapped with
`PlatformId = 1`, which is not the Web platform id 5 that the repository
uses, so the claim's "platform defaulted to the Web platform" fails. -/
theorem C6_counterexample :
    ParseMultiIssuer none (some ⟨"ext_user_1"⟩) = .ok ⟨"ext_user_1", 1⟩ ∧
    (1 : Int) ≠ webPlatformId :=
  ⟨rfl, by decide⟩

/-- C6 (amended): for every external-issuer token accepted by the
multi-issuer verifier, the resulting claims carry the external token's
`user_id` mapped directly to the native user id, and the platform is
defaulted to the constant platform id 1 — not the Web platform id 5 used
elsewhere in the repository. -/
theorem C6_external_token_mapping_amended (ext : ExternalClaims) :
    ParseMultiIssuer none (some ext) = .ok ⟨ext.userId, 1⟩ ∧
    ∀ c, ParseMultiIssuer none (some ext) = .ok c → c.platformId ≠ webPlatformId := by
  refine ⟨rfl, ?_⟩
  intro c hc
  simp only [ParseMultiIssuer, Except.ok.injEq] at hc
  subst hc
  exact show (1 : Int) ≠ webPlatformId by decide

/-- C7: enqueueing a frame with `WriteMessage` never blocks — on a full
write channel it returns `ErrWriteChannelFull` at once without enqueueing
the frame, after `Close` it returns `ErrConnClosed` — and `Close` is
idempotent: it closes the channel and socket exactly once, a repeated call
changes nothing, and it always returns nil. -/
theorem C7_write_nonblocking_close_idempotent (c : ConnState) (data : List Nat) :
    (c.closed = true → WriteMessage c data = (.error .connClosed, c)) ∧
    (c.closed = false → c.chanCapacity ≤ c.writeChan.length →
      WriteMessage c data = (.error .writeChannelFull, c)) ∧
    (c.closed = false → c.writeChan.length < c.chanCapacity →
      WriteMessage c data = (.ok (), { c with writeChan := c.writeChan ++ [data] })) ∧
    ((Close c).1 = .ok ()) ∧
    (c.closed = false → (Close c).2
      = { c with closed := true, writeChanClosed := true, closeChanClosed := true }) ∧
    (Close ((Close c).2) = (.ok (), (Close c).2)) := by
  refine ⟨?_, ?_, ?_, ?_, ?_, ?_⟩
  · intro hc
    unfold WriteMessage
    rw [if_pos hc]
  · intro hc hfull
    unfold WriteMessage
    rw [if_neg (by simp [hc]), if_neg (by omega)]
  · intro hc hlt
    unfold WriteMessage
    rw [if_neg (by simp [hc]), if_pos hlt]
  · unfold Close
    split <;> rfl
  · intro hc
    unfold Close
    rw [if_neg (by simp [hc])]
  · by_cases hc : c.closed = true
    · have h1 : Close c = (.ok (), c) := by
        unfold Close
        rw [if_pos hc]
      rw [h1]
      show Close c = (.ok (), c)
      exact h1
    · have h1 : Close c = (.ok (),
          { c with closed := true, writeChanClosed := true, closeChanClosed := true }) := by
        unfold Close
        rw [if_neg hc]
      rw [h1]
      show Close { c with closed := true, writeChanClosed := true, closeChanClosed := true }
        = (.ok (), { c with closed := true, writeChanClosed := true, closeChanClosed := true })
      unfold Close
      rw [if_pos rfl]

theorem C7_write_nonblocking_close_idempotent_witness :
    WriteMessage ⟨[[0]], 1, false, false, false⟩ [1]
      = (.error .writeChannelFull, ⟨[[0]], 1, false, false, false⟩) ∧
    WriteMessage ⟨[], 256, true, true, true⟩ [1]
      = (.error .connClosed, ⟨[], 256, true, true, true⟩) ∧
    (Close ⟨[], 256, false, false, false⟩).2
      = ⟨[], 256, true, true, true⟩ :=
  ⟨(C7_write_nonblocking_close_idempotent ⟨[[0]], 1, false, false, false⟩ [1]).2.1
      rfl (by decide),
   (C7_write_nonblocking_close_idempotent ⟨[], 256, true, true, true⟩ [1]).1 rfl,
   (C7_write_nonblocking_close_idempotent ⟨[], 256, false, false, false⟩ [1]).2.2.2.2.1
      rfl⟩

/-- C8: `UpdateConversation` with an empty patch is a no-op — it succeeds,
invokes no storage update, and leaves the store (hence the conversation
row) entirely unchanged — and a patch with exactly one field present issues
exactly one storage update carrying only that field. -/
theorem C8_update_empty_patch_noop (st : UpdateStore) (uid cid : String)
    (v : Int) (b : Bool) :
    UpdateConversation st uid cid ⟨none, none⟩ = (.ok (), st, []) ∧
    (UpdateConversation st uid cid ⟨some v, none⟩).2.2 = [[.recvMsgOpt v]] ∧
    (UpdateConversation st uid cid ⟨none, some b⟩).2.2 = [[.isPinned b]] := by
  refine ⟨rfl, ?_, ?_⟩
  · by_cases hok : st.updateOk = true <;>
      simp [UpdateConversation, buildConversationUpdates, UpdateStore.repoUpdate, hok]
  · by_cases hok : st.updateOk = true <;>
      simp [UpdateConversation, buildConversationUpdates, UpdateStore.repoUpdate, hok]

/-- C9: with an empty configured allow-list `isServiceAllowed` returns true
for every service name — so a request with a valid signature is never
rejected as not allow-listed — and matching against a non-empty list is
case-insensitive (`EqualFold`) on whitespace-trimmed configured entries. -/
theorem C9_service_allowlist (name : String) (allowed : List String)
    (cfg : InternalAuthConfig) (now : Int) (req : InternalRequest) :
    isServiceAllowed name [] = true ∧
    (isServiceAllowed name allowed = true ↔
      (allowed = [] ∨ ∃ s ∈ allowed, equalFold (trimSpace s) name = true)) ∧
    (cfg.allowedServices = [] → cfg.enabled = true → trimSpace cfg.secret ≠ "" →
      validateInternalRequest (some cfg) now req ≠ .error .forbidden) := by
  refine ⟨rfl, ?_, ?_⟩
  · by_cases hemp : allowed = []
    · subst hemp
      simp [isServiceAllowed]
    · simp [isServiceAllowed, List.isEmpty_iff, hemp, List.any_eq_true]
  · intro hemp he hsec hcon
    simp only [validateInternalRequest] at hcon
    rw [if_neg (show ¬(!cfg.enabled) = true by simp [he]), if_neg hsec] at hcon
    split at hcon
    · exact absurd hcon (by simp)
    rw [if_neg (show ¬(!isServiceAllowed (trimSpace req.serviceNameHeader)
        cfg.allowedServices) = true by simp [hemp, isServiceAllowed])] at hcon
    split at hcon
    · exact absurd hcon (by simp)
    split at hcon
    · exact absurd hcon (by simp)
    split at hcon
    · exact absurd hcon (by simp)
    · exact absurd hcon (by simp)

theorem C9_service_allowlist_witness :
    isServiceAllowed "any-service" [] = true ∧
    validateInternalRequest (some ⟨true, "secret", [], 300⟩) 2000 reqC4
      ≠ .error .forbidden :=
  ⟨(C9_service_allowlist "any-service" [] ⟨true, "secret", [], 300⟩ 2000 reqC4).1,
   (C9_service_allowlist "any-service" [] ⟨true, "secret", [], 300⟩ 2000 reqC4).2.2
      rfl rfl (by decide)⟩

end NexoIm